import Mathlib


/-!
Verification of the Growth Garden calculator module (tree health, growth
stages, analytics/streaks, CSV export) against its specification.

The TypeScript sources are shallowly embedded:
- JS numbers that only ever hold integers are modelled as `Int`;
- JS numbers produced by `/` (fractional hours, rates) are modelled as `ℚ`;
- timestamps are milliseconds since the Unix epoch (`Int`); the time zone is
  modelled as UTC, so `Date.prototype.toDateString` truncates a timestamp to
  `⌊ms / 86400000⌋` days and renders that civil day;
- `Date` strings such as "Mon Jan 01 2024" are rendered as actual `String`s
  (weekday and month abbreviations, zero-padded day, year), because the code
  sorts them with JavaScript's default lexicographic `Array.prototype.sort`;
- a JS value that may be `undefined` is an `Option`.
-/

/-- Milliseconds per day, the constant `1000 * 60 * 60 * 24` of the source. -/
def msPerDay : Int := 86400000

/-- Milliseconds per hour, the constant `1000 * 60 * 60` of the source. -/
def msPerHour : Int := 3600000

/-- Gregorian civil date (year, month 1..12, day 1..31) of a day count since
1970-01-01 (Howard Hinnant's `civil_from_days`, the algorithm implemented by
JavaScript engines for `Date`). -/
def civilFromDays (z : Int) : Int × Int × Int :=
  let z' := z + 719468
  let era := Int.fdiv z' 146097
  let doe := z' - era * 146097
  let yoe := Int.fdiv (doe - Int.fdiv doe 1460 + Int.fdiv doe 36524 - Int.fdiv doe 146096) 365
  let y := yoe + era * 400
  let doy := doe - (365 * yoe + Int.fdiv yoe 4 - Int.fdiv yoe 100)
  let mp := Int.fdiv (5 * doy + 2) 153
  let d := doy - Int.fdiv (153 * mp + 2) 5 + 1
  let m := if mp < 10 then mp + 3 else mp - 9
  (if m ≤ 2 then y + 1 else y, m, d)

/-- Day count since 1970-01-01 of a Gregorian civil date (Hinnant's
`days_from_civil`), used to build concrete test dates. -/
def daysFromCivil (y m d : Int) : Int :=
  let y' := if m ≤ 2 then y - 1 else y
  let era := Int.fdiv y' 400
  let yoe := y' - era * 400
  let mp := if m > 2 then m - 3 else m + 9
  let doy := Int.fdiv (153 * mp + 2) 5 + d - 1
  let doe := yoe * 365 + Int.fdiv yoe 4 - Int.fdiv yoe 100 + doy
  era * 146097 + doe - 719468

/-- Weekday of a day count (0 = Sunday … 6 = Saturday); 1970-01-01 was a
Thursday. This is JS `Date.prototype.getDay` in the UTC model. -/
def weekdayIdx (z : Int) : Int := (z + 4).emod 7

/-- Three-letter weekday abbreviation used by `Date.prototype.toDateString`. -/
def weekdayAbbrev (w : Int) : String :=
  if w = 0 then "Sun" else if w = 1 then "Mon" else if w = 2 then "Tue"
  else if w = 3 then "Wed" else if w = 4 then "Thu" else if w = 5 then "Fri"
  else "Sat"

/-- Three-letter month abbreviation used by `Date.prototype.toDateString`. -/
def monthAbbrev (m : Int) : String :=
  if m = 1 then "Jan" else if m = 2 then "Feb" else if m = 3 then "Mar"
  else if m = 4 then "Apr" else if m = 5 then "May" else if m = 6 then "Jun"
  else if m = 7 then "Jul" else if m = 8 then "Aug" else if m = 9 then "Sep"
  else if m = 10 then "Oct" else if m = 11 then "Nov" else "Dec"

/-- Two-digit zero-padded rendering of a day-of-month. -/
def pad2 (n : Int) : String := if n < 10 then "0" ++ toString n else toString n

/-- The day count a millisecond timestamp falls on (UTC model): the calendar
date part that `new Date(ms).toDateString()` renders. -/
def msToDay (ms : Int) : Int := Int.fdiv ms msPerDay

/-- `Date.prototype.toDateString` of a civil day count, e.g. day 19723 ↦
"Mon Jan 01 2024". Distinct day counts render to distinct strings (the civil
triple is recoverable from the string), so string equality of rendered dates
coincides with day-count equality. -/
def toDateString (z : Int) : String :=
  let c := civilFromDays z
  weekdayAbbrev (weekdayIdx z) ++ " " ++ monthAbbrev c.2.1 ++ " " ++
    pad2 c.2.2 ++ " " ++ toString c.1

/-! ## Tree health (src: tree-health file, `calculateTreeHealth`) -/

/-- The derived `TreeHealth` record of the source. `status` is one of
"healthy" / "warning" / "withered"; the hour fields are fractional JS numbers,
modelled as `ℚ`. -/
structure TreeHealth where
  status : String
  hoursUntilDeath : ℚ
  hoursUntilWarning : ℚ
  daysSinceWatered : Int
  deriving Repr, DecidableEq

/-- The `lastWatered` argument of `calculateTreeHealth`
(`Date | string | null | undefined`): absent (`null`/`undefined`), a string
that does not parse to a valid date, or a valid timestamp in ms. -/
inductive LastWatered where
  | missing : LastWatered
  | invalid : LastWatered
  | valid : Int → LastWatered

/-- Fractional hours elapsed from timestamp `ms` to wall clock `nowMs`:
`(now.getTime() - lastWateredDate.getTime()) / (1000 * 60 * 60)`. -/
def hoursSince (ms nowMs : Int) : ℚ := ((nowMs - ms : Int) : ℚ) / (msPerHour : ℚ)

/-- `calculateTreeHealth` of the source, with the wall clock (`new Date()`)
passed explicitly as `nowMs`. Missing and unparseable inputs take the
"watered 24 hours ago" fallback branches. -/
def calculateTreeHealth (lastWatered : LastWatered) (nowMs : Int) : TreeHealth :=
  match lastWatered with
  | .missing =>
      { status := "healthy", hoursUntilDeath := 168 - 24,
        hoursUntilWarning := 72 - 24, daysSinceWatered := 1 }
  | .invalid =>
      { status := "healthy", hoursUntilDeath := 168 - 24,
        hoursUntilWarning := 72 - 24, daysSinceWatered := 1 }
  | .valid ms =>
      let hoursSinceWatered : ℚ := hoursSince ms nowMs
      let daysSinceWatered : Int := ⌊hoursSinceWatered / 24⌋
      let hoursUntilWarning : ℚ := max 0 (72 - hoursSinceWatered)
      let hoursUntilDeath : ℚ := max 0 (168 - hoursSinceWatered)
      let status : String :=
        if hoursSinceWatered ≥ 168 then "withered"
        else if hoursSinceWatered ≥ 72 then "warning"
        else "healthy"
      { status := status, hoursUntilDeath := hoursUntilDeath,
        hoursUntilWarning := hoursUntilWarning,
        daysSinceWatered := daysSinceWatered }

/-! ## Growth-stage mapper (src: goal-tree-card component,
`getPlantVisualization`) -/

/-- The fields of a goal that `getPlantVisualization` reads. -/
structure VisGoal where
  status : String
  plantType : String
  currentLevel : Int

/-- The `growthStages` table: `growthStages[plantType] || growthStages.sprout`
(unknown plant types fall back to the sprout sequence). -/
def growthStages (plantType : String) : List String :=
  if plantType = "sprout" then ["🌱", "🌿", "🌱🌿", "🌱🌿🌱"]
  else if plantType = "herb" then ["🌿", "🌱🌿", "🌿🌱🌿", "🌿🌱🌿🌱"]
  else if plantType = "tree" then ["🌱", "🌿", "🌳", "🌳🌿"]
  else if plantType = "flower" then ["🌸", "🌸🌿", "🌸🌿🌸", "🌸🌿🌸🌿"]
  else ["🌱", "🌿", "🌱🌿", "🌱🌿🌱"]

/-- The withered-status `switch` of `getPlantVisualization`. -/
def witheredSymbol (plantType : String) : String :=
  if plantType = "flower" then "🥀"
  else if plantType = "tree" then "🌳"
  else if plantType = "herb" then "🌿"
  else if plantType = "sprout" then "🌱"
  else "🥀"

/-- JavaScript array indexing `stages[i]`: `undefined` (`none`) when the index
is negative or at least the length. -/
def jsIndex (l : List String) (i : Int) : Option String :=
  if h : 0 ≤ i ∧ i.toNat < l.length then some (l.get ⟨i.toNat, h.2⟩) else none

/-- `getPlantVisualization` of the source: withered goals short-circuit to a
type-specific symbol; otherwise the stage at
`Math.min(level - 1, stages.length - 1)` is looked up (with no lower clamp). -/
def getPlantVisualization (goal : VisGoal) : Option String :=
  if goal.status = "withered" then some (witheredSymbol goal.plantType)
  else
    let stages := growthStages goal.plantType
    let stageIndex := min (goal.currentLevel - 1) ((stages.length : Int) - 1)
    jsIndex stages stageIndex

/-! ## Analytics, streaks and CSV export (src: analytics file)

The `Goal` and `Action` records imported there from `@shared/schema` are
modelled with exactly the fields the analytics module reads. -/

namespace Garden

structure Goal where
  id : Int
  name : String
  plantType : String
  currentLevel : Int
  currentXP : Int
  status : String

structure Action where
  id : Int
  goalId : Int
  isCompleted : Bool
  completedAt : Option Int
  xpReward : Int
  createdAt : Int

/-- The `activityStreaks` component of `GrowthAnalytics`. -/
structure Streaks where
  current : Int
  longest : Int
  deriving Repr, DecidableEq

structure GrowthAnalytics where
  totalGoals : Int
  activeGoals : Int
  completedGoals : Int
  witheredGoals : Int
  totalActions : Int
  completedActions : Int
  totalXP : Int
  averageGoalLevel : ℚ
  completionRate : Int
  activityStreaks : Streaks

structure DetailedGoalReport where
  goal : Goal
  actions : List Action
  actionCount : Int
  completedActionCount : Int
  totalXPFromActions : Int
  averageXPPerAction : ℚ
  completionRate : Int
  daysActive : Int
  lastActivityDate : Option Int

/-- JavaScript `Math.round`: half-way cases round toward +∞. -/
def jsRound (q : ℚ) : Int := ⌊q + 1 / 2⌋

/-- JavaScript `Math.ceil`. -/
def jsCeil (q : ℚ) : Int := ⌈q⌉

/-- Lexicographic order on character lists: JavaScript's `<` on strings
(code-unit order; the rendered date strings are ASCII, where code-point and
code-unit order agree). -/
def charListLt : List Char → List Char → Bool
  | [], [] => false
  | [], _ :: _ => true
  | _ :: _, [] => false
  | a :: as, b :: bs => if a < b then true else if b < a then false else charListLt as bs

/-- JavaScript `<` on two strings. -/
def strLt (a b : String) : Bool := charListLt a.data b.data

/-- JavaScript default-comparator order on two rendered date strings:
`Array.prototype.sort()` with no comparator sorts lexicographically by code
units. The day counts stand for their `toDateString` renderings. -/
def dateStrLe (a b : Int) : Bool := !(strLt (toDateString b) (toDateString a))

def insertSorted (le : Int → Int → Bool) (x : Int) : List Int → List Int
  | [] => [x]
  | y :: ys => if le x y then x :: y :: ys else y :: insertSorted le x ys

/-- A sort producing the list ordered by `le` (JS `Array.prototype.sort`;
for the total orders used here the sorted result is the same). -/
def insertionSort (le : Int → Int → Bool) : List Int → List Int
  | [] => []
  | x :: xs => insertSorted le x (insertionSort le xs)

def dedupAux (seen : List Int) : List Int → List Int
  | [] => []
  | x :: xs => if seen.contains x then dedupAux seen xs else x :: dedupAux (x :: seen) xs

/-- `completedDates` of `calculateGrowthAnalytics`: the completion days of
completed actions carrying a completion timestamp, `.sort()`ed by their
`toDateString` renderings (lexicographically — NOT chronologically, since the
strings start with the weekday name). -/
def completedDatesSorted (actions : List Action) : List Int :=
  insertionSort dateStrLe
    ((actions.filter (fun a => a.isCompleted && a.completedAt.isSome)).map
      (fun a => msToDay (a.completedAt.getD 0)))

/-- `uniqueDates = Array.from(new Set(completedDates))`: value-level
de-duplication keeping first occurrences (`toDateString` is injective, so
de-duplicating the strings is de-duplicating the day counts). -/
def uniqueDates (actions : List Action) : List Int :=
  dedupAux [] (completedDatesSorted actions)

/-- `Math.floor((currDate.getTime() - prevDate.getTime()) / 86400000)` where
both dates were re-parsed from `toDateString` strings, hence sit at local
midnight: `getTime()` is `day * 86400000`. -/
def dayDiff (prevDay currDay : Int) : Int :=
  Int.fdiv (currDay * msPerDay - prevDay * msPerDay) msPerDay

/-- The longest-streak loop of `calculateStreaks` (indices `1..n-1`), with
`tempStreak`/`longestStreak` as accumulators; on exit the source takes
`max longestStreak tempStreak`. -/
def longestAux (prev longest temp : Int) : List Int → Int
  | [] => max longest temp
  | d :: rest =>
      if dayDiff prev d = 1 then longestAux d longest (temp + 1) rest
      else longestAux d (max longest temp) 1 rest

/-- The current-streak backward walk of `calculateStreaks` (indices
`n-2..0`, i.e. the reversed `dropLast`), stopping at the first non-1 gap. -/
def currentAux (next acc : Int) : List Int → Int
  | [] => acc
  | p :: rest => if dayDiff p next = 1 then currentAux p (acc + 1) rest else acc

/-- `calculateStreaks` of the source. `sortedDates` holds the day counts of
the date strings handed in by `calculateGrowthAnalytics`; `nowMs` is the wall
clock (`new Date()`), from which today's and yesterday's date strings are
rendered. -/
def calculateStreaks (sortedDates : List Int) (nowMs : Int) : Streaks :=
  match sortedDates with
  | [] => { current := 0, longest := 0 }
  | d :: rest =>
      let longestStreak := longestAux d 0 1 rest
      let lastActivityDate := (d :: rest).getLast (List.cons_ne_nil d rest)
      let currentStreak :=
        if toDateString lastActivityDate = toDateString (msToDay nowMs) ∨
            toDateString lastActivityDate = toDateString (msToDay nowMs - 1)
        then currentAux lastActivityDate 1 ((d :: rest).dropLast.reverse)
        else 0
      { current := currentStreak, longest := longestStreak }

/-- `calculateGrowthAnalytics` of the source, with the wall clock passed
explicitly. -/
def calculateGrowthAnalytics (goals : List Goal) (actions : List Action)
    (nowMs : Int) : GrowthAnalytics :=
  let totalActions : Int := actions.length
  let completedActions : Int := (actions.filter (fun a => a.isCompleted)).length
  let averageGoalLevel : ℚ :=
    if 0 < goals.length then
      ((goals.map (fun g => g.currentLevel)).sum : ℚ) / (goals.length : ℚ)
    else 0
  { totalGoals := (goals.length : Int)
    activeGoals := ((goals.filter (fun g => g.status = "active")).length : Int)
    completedGoals := ((goals.filter (fun g => g.status = "completed")).length : Int)
    witheredGoals := ((goals.filter (fun g => g.status = "withered")).length : Int)
    totalActions := totalActions
    completedActions := completedActions
    totalXP := ((actions.filter (fun a => a.isCompleted)).map (fun a => a.xpReward)).sum
    averageGoalLevel := ((jsRound (averageGoalLevel * 10) : Int) : ℚ) / 10
    completionRate :=
      if 0 < totalActions then
        jsRound ((completedActions : ℚ) / (totalActions : ℚ) * 100)
      else 0
    activityStreaks := calculateStreaks (uniqueDates actions) nowMs }

/-- `Math.max(...)` / `Math.min(...)` over a list, `none` when empty (the
source guards emptiness by `goalActions.length > 0`). -/
def listMax : List Int → Option Int
  | [] => none
  | t :: ts => some (ts.foldl max t)

def listMin : List Int → Option Int
  | [] => none
  | t :: ts => some (ts.foldl min t)

/-- The body of `generateDetailedGoalReport`'s `goals.map` callback. -/
def goalReport (actions : List Action) (goal : Goal) : DetailedGoalReport :=
  let goalActions := actions.filter (fun a => a.goalId = goal.id)
  let completedActions := goalActions.filter (fun a => a.isCompleted)
  let totalXPFromActions : Int := (completedActions.map (fun a => a.xpReward)).sum
  let lastActivityDate := listMax (goalActions.map (fun a => a.createdAt))
  let firstActivityDate := listMin (goalActions.map (fun a => a.createdAt))
  let daysActive : Int :=
    match firstActivityDate, lastActivityDate with
    | some f, some l => jsCeil (((l - f : Int) : ℚ) / (msPerDay : ℚ)) + 1
    | _, _ => 0
  { goal := goal
    actions := goalActions
    actionCount := (goalActions.length : Int)
    completedActionCount := (completedActions.length : Int)
    totalXPFromActions := totalXPFromActions
    averageXPPerAction :=
      if 0 < goalActions.length then
        ((jsRound ((totalXPFromActions : ℚ) / (goalActions.length : ℚ) * 10) : Int) : ℚ) / 10
      else 0
    completionRate :=
      if 0 < goalActions.length then
        jsRound ((completedActions.length : ℚ) / (goalActions.length : ℚ) * 100)
      else 0
    daysActive := daysActive
    lastActivityDate := lastActivityDate }

def generateDetailedGoalReport (goals : List Goal) (actions : List Action) :
    List DetailedGoalReport :=
  goals.map (goalReport actions)

/-- A completed action whose completion timestamp is `ms`, for concrete
streak inputs. -/
def demoAction (ms : Int) : Action :=
  { id := 0, goalId := 1, isCompleted := true, completedAt := some ms,
    xpReward := 10, createdAt := ms }

/-- Whether adjacent day-differences are all exactly 1 (proof-side
specification used to relate the two loops of `calculateStreaks`). -/
def isChain : List Int → Bool
  | [] => true
  | [_] => true
  | a :: b :: rest => (dayDiff a b == 1) && isChain (b :: rest)

/-- Number of adjacent 1-day gaps in the maximal consecutive suffix run of a
list of days (proof-side specification). -/
def sufRun : List Int → Nat
  | [] => 0
  | [_] => 0
  | a :: b :: rest =>
      if isChain (a :: b :: rest) then 1 + sufRun (b :: rest) else sufRun (b :: rest)

/-- Number of 1-day gaps the backward walk takes before stopping
(proof-side specification of `currentAux` minus its accumulator). -/
def runLen (next : Int) : List Int → Nat
  | [] => 0
  | p :: rest => if dayDiff p next = 1 then 1 + runLen p rest else 0

/-- Rendering of a JS number in a template string, for the values the
aggregator produces: integers print as decimals, one-decimal values (the
rounded average level, a multiple of 1/10) print with one fractional digit. -/
def jsNumberString (q : ℚ) : String :=
  if q.den = 1 then toString q.num
  else (if q < 0 then "-" else "") ++ toString (q.num.natAbs / q.den) ++ "." ++
    toString (q.num.natAbs * 10 / q.den % 10)

/-- `generateSummaryCSV` of the source: the template literal transcribed
chunk by chunk, with its embedded newlines written as explicit `"\n"` pieces
(`${new Date().toLocaleDateString()}` is the `generatedDate` parameter). -/
def generateSummaryCSV (analytics : GrowthAnalytics) (generatedDate : String) : String :=
  "Growth Garden Summary Report" ++ "\n" ++
  "Generated," ++ generatedDate ++ "\n" ++
  "\n" ++
  "Metric,Value" ++ "\n" ++
  "Total Goals," ++ toString analytics.totalGoals ++ "\n" ++
  "Active Goals," ++ toString analytics.activeGoals ++ "\n" ++
  "Completed Goals," ++ toString analytics.completedGoals ++ "\n" ++
  "Withered Goals," ++ toString analytics.witheredGoals ++ "\n" ++
  "Total Actions," ++ toString analytics.totalActions ++ "\n" ++
  "Completed Actions," ++ toString analytics.completedActions ++ "\n" ++
  "Total XP Earned," ++ toString analytics.totalXP ++ "\n" ++
  "Average Goal Level," ++ jsNumberString analytics.averageGoalLevel ++ "\n" ++
  "Completion Rate," ++ toString analytics.completionRate ++ "%" ++ "\n" ++
  "Current Streak," ++ toString analytics.activityStreaks.current ++ " days" ++ "\n" ++
  "Longest Streak," ++ toString analytics.activityStreaks.longest ++ " days"

/-- Newline-joined lines (the claim-side shape: a header line followed by
one row per metric). -/
def joinLines : List String → String
  | [] => ""
  | [x] => x
  | x :: xs => x ++ "\n" ++ joinLines xs

/-- A concrete goal for the C8 witness. -/
def demoGoal : Goal :=
  { id := 1, name := "Run", plantType := "tree", currentLevel := 1,
    currentXP := 0, status := "active" }

end Garden

/-- **C4.** For every parseable last-watered timestamp the status is a
function of the elapsed hours alone: `< 72` hours is "healthy", `[72, 168)`
is "warning", and `≥ 168` is "withered"; both boundaries are inclusive on
the higher-severity side. -/
theorem C4_status_thresholds (ms nowMs : Int) :
    (hoursSince ms nowMs < 72 →
      (calculateTreeHealth (.valid ms) nowMs).status = "healthy") ∧
    (72 ≤ hoursSince ms nowMs → hoursSince ms nowMs < 168 →
      (calculateTreeHealth (.valid ms) nowMs).status = "warning") ∧
    (168 ≤ hoursSince ms nowMs →
      (calculateTreeHealth (.valid ms) nowMs).status = "withered") := by
  refine ⟨fun h => ?_, fun h1 h2 => ?_, fun h => ?_⟩ <;>
      simp only [calculateTreeHealth]
  · rw [if_neg (by intro hc; exact absurd h (not_lt.mpr (by linarith))),
        if_neg (by intro hc; exact absurd h (not_lt.mpr (by linarith)))]
  · rw [if_neg (not_le.mpr h2), if_pos h1]
  · rw [if_pos h]

/-- **C4 witness**: at exactly 72 elapsed hours the status is "warning", at
exactly 168 hours it is "withered", and strictly below 72 (71 hours) it is
"healthy". -/
theorem C4_status_thresholds_witness :
    (calculateTreeHealth (.valid 0) (72 * msPerHour)).status = "warning" ∧
    (calculateTreeHealth (.valid 0) (168 * msPerHour)).status = "withered" ∧
    (calculateTreeHealth (.valid 0) (71 * msPerHour)).status = "healthy" := by
  refine ⟨(C4_status_thresholds 0 (72 * msPerHour)).2.1
            (by norm_num [hoursSince, msPerHour]) (by norm_num [hoursSince, msPerHour]),
          (C4_status_thresholds 0 (168 * msPerHour)).2.2
            (by norm_num [hoursSince, msPerHour]),
          (C4_status_thresholds 0 (71 * msPerHour)).1
            (by norm_num [hoursSince, msPerHour])⟩

/-- **C5.** A missing (`null`/`undefined`) or unparseable last-watered value
never signals an error: the evaluator totally returns the fallback record of
a goal watered 24 hours ago — "healthy", 48 hours until warning, 144 hours
until death, 1 day since watered. -/
theorem C5_fallback_on_missing_or_invalid (nowMs : Int) :
    calculateTreeHealth .missing nowMs =
      { status := "healthy", hoursUntilDeath := 144, hoursUntilWarning := 48,
        daysSinceWatered := 1 } ∧
    calculateTreeHealth .invalid nowMs =
      { status := "healthy", hoursUntilDeath := 144, hoursUntilWarning := 48,
        daysSinceWatered := 1 } := by
  constructor <;> · simp only [calculateTreeHealth, TreeHealth.mk.injEq]
                    norm_num

/-- **C7.** For a parseable timestamp not in the future, the countdown fields
follow the documented formulas `max 0 (72 - h)`, `max 0 (168 - h)` and
`⌊h / 24⌋`; moreover for *every* input (valid, future, missing or invalid)
the two countdowns are never negative. -/
theorem C7_countdown_formulas (ms nowMs : Int) (_hle : ms ≤ nowMs) :
    ((calculateTreeHealth (.valid ms) nowMs).hoursUntilWarning =
        max 0 (72 - hoursSince ms nowMs) ∧
      (calculateTreeHealth (.valid ms) nowMs).hoursUntilDeath =
        max 0 (168 - hoursSince ms nowMs) ∧
      (calculateTreeHealth (.valid ms) nowMs).daysSinceWatered =
        ⌊hoursSince ms nowMs / 24⌋) ∧
    (∀ (lw : LastWatered) (t : Int),
      0 ≤ (calculateTreeHealth lw t).hoursUntilWarning ∧
      0 ≤ (calculateTreeHealth lw t).hoursUntilDeath) := by
  refine ⟨⟨rfl, rfl, rfl⟩, fun lw t => ?_⟩
  cases lw with
  | missing => exact ⟨by norm_num [calculateTreeHealth], by norm_num [calculateTreeHealth]⟩
  | invalid => exact ⟨by norm_num [calculateTreeHealth], by norm_num [calculateTreeHealth]⟩
  | valid ms' =>
      exact ⟨le_max_left _ _, le_max_left _ _⟩

/-- **C7 witness**: at 96 elapsed hours the countdowns are 0 and 72 and the
day count is 4; countdowns are non-negative also on the fallback record. -/
theorem C7_countdown_formulas_witness :
    (calculateTreeHealth (.valid 0) (96 * msPerHour)).hoursUntilWarning = 0 ∧
    (calculateTreeHealth (.valid 0) (96 * msPerHour)).hoursUntilDeath = 72 ∧
    (calculateTreeHealth (.valid 0) (96 * msPerHour)).daysSinceWatered = 4 ∧
    0 ≤ (calculateTreeHealth .missing 0).hoursUntilWarning := by
  have h := C7_countdown_formulas 0 (96 * msPerHour) (by norm_num [msPerHour])
  refine ⟨h.1.1.trans (by norm_num [hoursSince, msPerHour]),
          h.1.2.1.trans (by norm_num [hoursSince, msPerHour]),
          h.1.2.2.trans (by norm_num [hoursSince, msPerHour]),
          (h.2 .missing 0).1⟩

/-- **C10.** A parseable timestamp strictly in the future is processed like
any other: the status is "healthy", `daysSinceWatered` is negative, and the
countdowns exceed 72 and 168 hours respectively — the input is neither
clamped to "now" nor treated as invalid. -/
theorem C10_future_timestamp (ms nowMs : Int) (hf : nowMs < ms) :
    (calculateTreeHealth (.valid ms) nowMs).status = "healthy" ∧
    (calculateTreeHealth (.valid ms) nowMs).daysSinceWatered < 0 ∧
    72 < (calculateTreeHealth (.valid ms) nowMs).hoursUntilWarning ∧
    168 < (calculateTreeHealth (.valid ms) nowMs).hoursUntilDeath := by
  have hneg : hoursSince ms nowMs < 0 := by
    have : ((nowMs - ms : Int) : ℚ) < 0 := by
      have : (nowMs - ms : Int) < 0 := by omega
      exact_mod_cast this
    have hpos : (0 : ℚ) < (msPerHour : ℚ) := by norm_num [msPerHour]
    exact div_neg_of_neg_of_pos this hpos
  refine ⟨?_, ?_, ?_, ?_⟩
  · exact (C4_status_thresholds ms nowMs).1 (by linarith)
  · show (⌊hoursSince ms nowMs / 24⌋ : Int) < 0
    have h24 : hoursSince ms nowMs / 24 < ((0 : Int) : ℚ) := by
      push_cast
      exact div_neg_of_neg_of_pos hneg (by norm_num)
    exact Int.floor_lt.mpr h24
  · show (72 : ℚ) < max 0 (72 - hoursSince ms nowMs)
    have : (72 : ℚ) < 72 - hoursSince ms nowMs := by linarith
    exact lt_max_of_lt_right this
  · show (168 : ℚ) < max 0 (168 - hoursSince ms nowMs)
    have : (168 : ℚ) < 168 - hoursSince ms nowMs := by linarith
    exact lt_max_of_lt_right this

/-- **C10 witness**: watered 24 hours in the future of `now = 0`. -/
theorem C10_future_timestamp_witness :
    (calculateTreeHealth (.valid (24 * msPerHour)) 0).status = "healthy" ∧
    (calculateTreeHealth (.valid (24 * msPerHour)) 0).daysSinceWatered < 0 ∧
    72 < (calculateTreeHealth (.valid (24 * msPerHour)) 0).hoursUntilWarning ∧
    168 < (calculateTreeHealth (.valid (24 * msPerHour)) 0).hoursUntilDeath :=
  C10_future_timestamp (24 * msPerHour) 0 (by decide)

/-- Every stage sequence (including the fallback) has four stages. -/
theorem growthStages_length (plantType : String) :
    (growthStages plantType).length = 4 := by
  unfold growthStages
  repeat first | rfl | split

theorem jsIndex_isSome (l : List String) (i : Int) (h0 : 0 ≤ i)
    (hlt : i.toNat < l.length) : (jsIndex l i).isSome = true := by
  simp [jsIndex, h0, hlt]

theorem jsIndex_getLast (l : List String) (hne : l ≠ []) :
    jsIndex l ((l.length : Int) - 1) = l.getLast? := by
  have hpos : 0 < l.length := List.length_pos.mpr hne
  have hidx : ((l.length : Int) - 1).toNat = l.length - 1 := by omega
  simp only [jsIndex, List.get_eq_getElem, hidx]
  rw [dif_pos (show (0 : Int) ≤ (l.length : Int) - 1 ∧ l.length - 1 < l.length from
        ⟨by omega, by omega⟩)]
  rw [List.getLast?_eq_getElem?, List.getElem?_eq_getElem (by omega)]

/-- **C3 counterexample.** The claim asserts the stage index is
`clamp(level - 1, 0, lastIndex)`, in bounds for every level ≥ 0, so the
lookup never yields an undefined element. The code has no lower clamp
(`Math.min(level - 1, stages.length - 1)` only): for an active sprout goal at
level 0 the index is -1 and `stages[-1]` is `undefined` (`none`). -/
theorem C3_level_zero_counterexample :
    getPlantVisualization
      { status := "active", plantType := "sprout", currentLevel := 0 } = none := by
  rfl

/-- **C3 amended.** For every plant type and every level ≥ 1 (not 0), the
selected index `min(level - 1, lastIndex)` is within bounds — the lookup
yields a defined stage — and it saturates at the final stage for any level at
or above the sequence length. -/
theorem C3_amended_stage_bounds (g : VisGoal) (hs : g.status ≠ "withered")
    (hl : 1 ≤ g.currentLevel) :
    (getPlantVisualization g).isSome = true ∧
    (((growthStages g.plantType).length : Int) ≤ g.currentLevel →
      getPlantVisualization g = (growthStages g.plantType).getLast?) := by
  have hlen := growthStages_length g.plantType
  have hne : growthStages g.plantType ≠ [] := by
    intro h
    rw [h] at hlen
    simp at hlen
  simp only [getPlantVisualization, if_neg hs]
  constructor
  · exact jsIndex_isSome _ _ (by omega) (by omega)
  · intro hsat
    have hmin : min (g.currentLevel - 1) (((growthStages g.plantType).length : Int) - 1) =
        ((growthStages g.plantType).length : Int) - 1 := by omega
    rw [hmin]
    exact jsIndex_getLast _ hne

/-- **C3 amended witness**: an active tree goal at level 9 renders a defined
stage, namely the last one of the tree sequence. -/
theorem C3_amended_stage_bounds_witness :
    (getPlantVisualization
        { status := "active", plantType := "tree", currentLevel := 9 }).isSome = true ∧
    getPlantVisualization
        { status := "active", plantType := "tree", currentLevel := 9 } =
      (growthStages "tree").getLast? := by
  have h := C3_amended_stage_bounds
    { status := "active", plantType := "tree", currentLevel := 9 }
    (by decide) (by decide)
  exact ⟨h.1, h.2 (by decide)⟩

namespace Garden

set_option maxRecDepth 4000 in
/-- **C1 evaluation.** Completed actions on 2024-01-01/02/03/05, evaluated
when today is 2024-01-05. The claim (and the spec's example) says the current
streak is 1. The pipeline sorts the `toDateString` strings lexicographically,
which orders "Fri Jan 05 2024" before "Mon Jan 01 2024" …, so the *last*
entry is Jan 03 — neither today nor yesterday — and the code returns
`current = 0` (first conjunct). On the chronologically sorted dates the
claimed walk would indeed give `current = 1, longest = 3` (second
conjunct). -/
theorem C1_current_streak_example :
    (calculateGrowthAnalytics []
        [demoAction (daysFromCivil 2024 1 1 * msPerDay),
         demoAction (daysFromCivil 2024 1 2 * msPerDay),
         demoAction (daysFromCivil 2024 1 3 * msPerDay),
         demoAction (daysFromCivil 2024 1 5 * msPerDay)]
        (daysFromCivil 2024 1 5 * msPerDay)).activityStreaks =
      { current := 0, longest := 3 } ∧
    calculateStreaks
        [daysFromCivil 2024 1 1, daysFromCivil 2024 1 2,
         daysFromCivil 2024 1 3, daysFromCivil 2024 1 5]
        (daysFromCivil 2024 1 5 * msPerDay) =
      { current := 1, longest := 3 } := by
  constructor <;> decide

set_option maxRecDepth 4000 in
/-- **C2 evaluation.** Completed actions on 2024-01-07 (a Sunday) and
2024-01-08 (a Monday). The claim says the longest streak scans the distinct
dates in chronological order, so these two consecutive days give
`longest = 2` (second conjunct, chronological input). The pipeline's
lexicographic string sort puts "Mon Jan 08 2024" before "Sun Jan 07 2024",
the scan sees a day-difference of -1, and the code returns `longest = 1`
(first conjunct). -/
theorem C2_longest_streak_example :
    (calculateGrowthAnalytics []
        [demoAction (daysFromCivil 2024 1 7 * msPerDay),
         demoAction (daysFromCivil 2024 1 8 * msPerDay)]
        0).activityStreaks.longest = 1 ∧
    (calculateStreaks [daysFromCivil 2024 1 7, daysFromCivil 2024 1 8]
        0).longest = 2 := by
  constructor <;> decide

theorem dayDiff_eq (a b : Int) : dayDiff a b = b - a := by
  unfold dayDiff
  rw [show b * msPerDay - a * msPerDay = (b - a) * msPerDay by ring]
  exact Int.mul_fdiv_cancel _ (by norm_num [msPerDay])

theorem currentAux_eq (l : List Int) : ∀ next acc : Int,
    currentAux next acc l = acc + (runLen next l : Int) := by
  induction l with
  | nil => intro next acc; simp [currentAux, runLen]
  | cons p rest ih =>
      intro next acc
      simp only [currentAux, runLen]
      by_cases h : dayDiff p next = 1
      · rw [if_pos h, if_pos h, ih]
        push_cast
        ring
      · rw [if_neg h, if_neg h]
        simp

theorem sufRun_le (ys : List Int) : ∀ a : Int, sufRun (a :: ys) ≤ ys.length := by
  induction ys with
  | nil => intro a; simp [sufRun]
  | cons b rest ih =>
      intro a
      simp only [sufRun, List.length_cons]
      split
      · have := ih b
        omega
      · have := ih b
        omega

theorem sufRun_of_chain (ys : List Int) : ∀ a : Int,
    isChain (a :: ys) = true → sufRun (a :: ys) = ys.length := by
  induction ys with
  | nil => intro a _; simp [sufRun]
  | cons b rest ih =>
      intro a h
      have hparts : (dayDiff a b == 1) = true ∧ isChain (b :: rest) = true := by
        simpa [isChain, Bool.and_eq_true] using h
      simp only [sufRun, List.length_cons]
      rw [if_pos h, ih b hparts.2]
      omega

theorem chain_of_sufRun (a : Int) (ys : List Int)
    (h : sufRun (a :: ys) = ys.length) : isChain (a :: ys) = true := by
  cases ys with
  | nil => rfl
  | cons b rest =>
      by_cases hc : isChain (a :: b :: rest) = true
      · exact hc
      · exfalso
        have h2 : sufRun (a :: b :: rest) = sufRun (b :: rest) := by
          simp only [sufRun]
          rw [if_neg hc]
        have h3 := sufRun_le rest b
        rw [h2] at h
        simp only [List.length_cons] at h
        omega

theorem longestAux_ge (rest : List Int) : ∀ prev l t : Int, 1 ≤ t →
    (if isChain (prev :: rest) = true then t + (rest.length : Int)
     else 1 + (sufRun (prev :: rest) : Int)) ≤ longestAux prev l t rest := by
  induction rest with
  | nil =>
      intro prev l t ht
      simp only [longestAux, isChain, List.length_nil]
      rw [if_pos trivial]
      simp
  | cons d rest' ih =>
      intro prev l t ht
      simp only [longestAux]
      by_cases hd : dayDiff prev d = 1
      · rw [if_pos hd]
        by_cases hc : isChain (d :: rest') = true
        · have hchain : isChain (prev :: d :: rest') = true := by
            simp [isChain, hd, hc]
          rw [if_pos hchain]
          have h2 := ih d l (t + 1) (by omega)
          rw [if_pos hc] at h2
          simp only [List.length_cons] at *
          push_cast at h2 ⊢
          linarith
        · have hchain : isChain (prev :: d :: rest') = false := by
            simp [isChain, hc]
          rw [if_neg (by simp [hchain])]
          have h2 := ih d l (t + 1) (by omega)
          rw [if_neg hc] at h2
          have hsuf : sufRun (prev :: d :: rest') = sufRun (d :: rest') := by
            simp only [sufRun]
            rw [if_neg (by simp [hchain])]
          rw [hsuf]
          exact h2
      · rw [if_neg hd]
        have hchain : isChain (prev :: d :: rest') = false := by
          simp [isChain, hd]
        rw [if_neg (by simp [hchain])]
        have hsuf : sufRun (prev :: d :: rest') = sufRun (d :: rest') := by
          simp only [sufRun]
          rw [if_neg (by simp [hchain])]
        rw [hsuf]
        have h2 := ih d (max l t) 1 le_rfl
        by_cases hc : isChain (d :: rest') = true
        · rw [if_pos hc] at h2
          have h3 : (sufRun (d :: rest') : Int) ≤ (rest'.length : Int) := by
            exact_mod_cast sufRun_le rest' d
          linarith
        · rw [if_neg hc] at h2
          exact h2

theorem longest_ge_sufRun (d : Int) (rest : List Int) :
    1 + (sufRun (d :: rest) : Int) ≤ longestAux d 0 1 rest := by
  have h := longestAux_ge rest d 0 1 le_rfl
  by_cases hc : isChain (d :: rest) = true
  · rw [if_pos hc] at h
    rw [sufRun_of_chain rest d hc]
    linarith
  · rw [if_neg hc] at h
    exact h

theorem runLen_append (ry : List Int) : ∀ next d bot : Int,
    (next :: ry).getLast (List.cons_ne_nil next ry) = bot →
    runLen next (ry ++ [d]) =
      runLen next ry +
        (if runLen next ry = ry.length ∧ dayDiff d bot = 1 then 1 else 0) := by
  induction ry with
  | nil =>
      intro next d bot hbot
      have hb : next = bot := by simpa [List.getLast_singleton] using hbot
      subst hb
      simp only [List.nil_append, runLen, List.length_nil, true_and]
      by_cases h : dayDiff d next = 1
      · rw [if_pos h]
      · rw [if_neg h]
  | cons p ry' ih =>
      intro next d bot hbot
      have hbot' : (p :: ry').getLast (List.cons_ne_nil p ry') = bot := by
        rw [← List.getLast_cons (List.cons_ne_nil p ry')]
        exact hbot
      simp only [List.cons_append, runLen]
      by_cases hp : dayDiff p next = 1
      · simp only [hp, reduceIte, List.append_eq]
        rw [ih p d bot hbot']
        simp only [List.length_cons]
        by_cases hq : runLen p ry' = ry'.length
        · by_cases hr : dayDiff d bot = 1
          · rw [if_pos ⟨hq, hr⟩, if_pos ⟨by omega, hr⟩]
            omega
          · rw [if_neg (by tauto), if_neg (by tauto)]
            omega
        · rw [if_neg (by tauto), if_neg (by rintro ⟨h1, _⟩; omega)]
          omega
      · simp only [hp, reduceIte]
        rw [if_neg (by rintro ⟨h1, _⟩; simp only [List.length_cons] at h1; omega)]

theorem runLen_rev_dropLast (ys : List Int) : ∀ (a : Int) (h : a :: ys ≠ []),
    runLen ((a :: ys).getLast h) ((a :: ys).dropLast.reverse) = sufRun (a :: ys) := by
  induction ys with
  | nil =>
      intro a h
      simp [runLen, sufRun]
  | cons b r ih =>
      intro a h
      have hbr : (b :: r) ≠ [] := List.cons_ne_nil b r
      have hg : (a :: b :: r).getLast h = (b :: r).getLast hbr := List.getLast_cons hbr
      have hdl : (a :: b :: r).dropLast = a :: (b :: r).dropLast := rfl
      rw [hg, hdl, List.reverse_cons]
      have hgl : ((b :: r).getLast hbr :: (b :: r).dropLast.reverse).getLast
          (List.cons_ne_nil _ _) = b := by
        have h1 : (b :: r).getLast hbr :: (b :: r).dropLast.reverse
            = ((b :: r).dropLast ++ [(b :: r).getLast hbr]).reverse := by
          rw [List.reverse_append]
          simp
        have h2 : ((b :: r).getLast hbr :: (b :: r).dropLast.reverse).getLast? =
            some b := by
          rw [h1, List.dropLast_append_getLast hbr, List.getLast?_reverse]
          rfl
        rw [List.getLast?_eq_getLast _ (List.cons_ne_nil _ _)] at h2
        exact Option.some_injective _ h2
      rw [runLen_append _ _ _ _ hgl, ih b hbr]
      have hlen : ((b :: r).dropLast.reverse).length = r.length := by
        simp [List.length_reverse, List.length_dropLast]
      rw [hlen]
      simp only [sufRun]
      by_cases hc : isChain (b :: r) = true
      · have hsc : sufRun (b :: r) = r.length := sufRun_of_chain r b hc
        by_cases hdb : dayDiff a b = 1
        · have hchain : isChain (a :: b :: r) = true := by
            simp [isChain, hdb, hc]
          rw [if_pos ⟨hsc, hdb⟩, if_pos hchain]
          omega
        · have hchain : isChain (a :: b :: r) = false := by
            simp [isChain, hdb]
          rw [if_neg (by tauto), if_neg (by simp [hchain])]
          omega
      · have hnot : ¬ sufRun (b :: r) = r.length := fun hh => hc (chain_of_sufRun b r hh)
        have hchain : isChain (a :: b :: r) = false := by
          simp [isChain, hc]
        rw [if_neg (by tauto), if_neg (by simp [hchain])]
        omega

theorem calculateStreaks_current_le (dates : List Int) (nowMs : Int) :
    (calculateStreaks dates nowMs).current ≤ (calculateStreaks dates nowMs).longest := by
  cases dates with
  | nil => simp [calculateStreaks]
  | cons d rest =>
      simp only [calculateStreaks]
      by_cases hcond :
          (toDateString ((d :: rest).getLast (List.cons_ne_nil d rest)) =
              toDateString (msToDay nowMs) ∨
            toDateString ((d :: rest).getLast (List.cons_ne_nil d rest)) =
              toDateString (msToDay nowMs - 1))
      · rw [if_pos hcond, currentAux_eq, runLen_rev_dropLast rest d (List.cons_ne_nil d rest)]
        exact longest_ge_sufRun d rest
      · rw [if_neg hcond]
        have h := longest_ge_sufRun d rest
        have h0 : (0 : Int) ≤ (sufRun (d :: rest) : Int) := Int.natCast_nonneg _
        linarith

/-- **C6.** For every list of goals, every list of actions and every wall
clock, the streak record satisfies `current ≤ longest`; and with zero
completed actions the streaks are `{current := 0, longest := 0}`. -/
theorem C6_longest_ge_current (goals : List Goal) (actions : List Action) (nowMs : Int) :
    (calculateGrowthAnalytics goals actions nowMs).activityStreaks.current ≤
      (calculateGrowthAnalytics goals actions nowMs).activityStreaks.longest ∧
    ((actions.filter (fun a => a.isCompleted)).length = 0 →
      (calculateGrowthAnalytics goals actions nowMs).activityStreaks =
        { current := 0, longest := 0 }) := by
  have hstreaks : (calculateGrowthAnalytics goals actions nowMs).activityStreaks =
      calculateStreaks (uniqueDates actions) nowMs := rfl
  rw [hstreaks]
  constructor
  · exact calculateStreaks_current_le _ _
  · intro h0
    have hfil : actions.filter (fun a => a.isCompleted) = [] :=
      List.length_eq_zero.mp h0
    have hfil2 : actions.filter (fun a => a.isCompleted && a.completedAt.isSome) = [] := by
      rw [List.filter_eq_nil_iff] at hfil ⊢
      intro a ha
      have h1 := hfil a ha
      simp only [Bool.and_eq_true, not_and] at *
      intro h2
      exact absurd h2 h1
    have hu : uniqueDates actions = [] := by
      unfold uniqueDates completedDatesSorted
      rw [hfil2]
      rfl
    rw [hu]
    rfl

/-- **C6 witness**: no goals, no actions — streaks are `{0, 0}` and
`current ≤ longest` holds. -/
theorem C6_longest_ge_current_witness :
    (calculateGrowthAnalytics [] [] 0).activityStreaks.current ≤
      (calculateGrowthAnalytics [] [] 0).activityStreaks.longest ∧
    (calculateGrowthAnalytics [] [] 0).activityStreaks =
      { current := 0, longest := 0 } := by
  have h := C6_longest_ge_current [] [] 0
  exact ⟨h.1, h.2 rfl⟩

set_option maxRecDepth 16000 in
/-- **C9.** For every analytics snapshot and generation date, the summary CSV
is exactly the title and date lines, a blank line, the header line
"Metric,Value", and one row per metric in the documented order. -/
theorem C9_summary_csv_layout (a : GrowthAnalytics) (d : String) :
    generateSummaryCSV a d =
      joinLines
        ["Growth Garden Summary Report",
         "Generated," ++ d,
         "",
         "Metric,Value",
         "Total Goals," ++ toString a.totalGoals,
         "Active Goals," ++ toString a.activeGoals,
         "Completed Goals," ++ toString a.completedGoals,
         "Withered Goals," ++ toString a.witheredGoals,
         "Total Actions," ++ toString a.totalActions,
         "Completed Actions," ++ toString a.completedActions,
         "Total XP Earned," ++ toString a.totalXP,
         "Average Goal Level," ++ jsNumberString a.averageGoalLevel,
         "Completion Rate," ++ toString a.completionRate ++ "%",
         "Current Streak," ++ toString a.activityStreaks.current ++ " days",
         "Longest Streak," ++ toString a.activityStreaks.longest ++ " days"] := by
  apply String.ext
  simp [generateSummaryCSV, joinLines, String.data_append, List.append_assoc]

/-- **C8.** Every rate or average over a possibly-zero count is guarded:
`completionRate` follows `round(completed / total * 100)` and is 0 with no
actions; `averageGoalLevel` is 0 with no goals; and a per-goal report entry
for a goal with no actions has `averageXPPerAction = 0` and
`completionRate = 0` — never a division error. -/
theorem C8_division_guards (goals : List Goal) (actions : List Action) (nowMs : Int) :
    ((calculateGrowthAnalytics goals actions nowMs).completionRate =
        if 0 < actions.length then
          jsRound (((((actions.filter (fun a => a.isCompleted)).length : Int)) : ℚ) /
            (((actions.length : Int)) : ℚ) * 100)
        else 0) ∧
    (actions = [] → (calculateGrowthAnalytics goals actions nowMs).completionRate = 0) ∧
    (goals = [] → (calculateGrowthAnalytics goals actions nowMs).averageGoalLevel = 0) ∧
    (∀ r ∈ generateDetailedGoalReport goals actions,
      r.actionCount = 0 → r.averageXPPerAction = 0 ∧ r.completionRate = 0) := by
  refine ⟨?_, ?_, ?_, ?_⟩
  · simp only [calculateGrowthAnalytics]
    by_cases h : 0 < actions.length
    · rw [if_pos (by exact_mod_cast h), if_pos h]
    · rw [if_neg (by simp at h; simp [h]), if_neg h]
  · intro h
    subst h
    rfl
  · intro h
    subst h
    simp only [calculateGrowthAnalytics]
    norm_num [jsRound]
  · intro r hr h0
    simp only [generateDetailedGoalReport, List.mem_map] at hr
    obtain ⟨g, hg, rfl⟩ := hr
    simp only [goalReport] at h0 ⊢
    have hlen : (actions.filter (fun a => a.goalId = g.id)).length = 0 := by
      exact_mod_cast h0
    constructor
    · rw [if_neg (by omega)]
    · rw [if_neg (by omega)]

/-- **C8 witness**: with no actions the completion rate is 0, with no goals
the average level is 0, and the report entry of a goal with no actions has
zero average XP and zero completion rate. -/
theorem C8_division_guards_witness :
    (calculateGrowthAnalytics [demoGoal] [] 0).completionRate = 0 ∧
    (calculateGrowthAnalytics [] [] 0).averageGoalLevel = 0 ∧
    ((goalReport [] demoGoal).averageXPPerAction = 0 ∧
      (goalReport [] demoGoal).completionRate = 0) := by
  refine ⟨(C8_division_guards [demoGoal] [] 0).2.1 rfl,
          (C8_division_guards [] [] 0).2.2.1 rfl,
          (C8_division_guards [demoGoal] [] 0).2.2.2 (goalReport [] demoGoal)
            (by simp [generateDetailedGoalReport]) rfl⟩

end Garden
